import Mathlib

/-!
Shallow embedding of the durable task-execution core of the
doc-analysis-vector-async repository:

* `src/backend/error_handler.py` — error taxonomy, keyword classifier,
  retry wrapper with exponential backoff, error tracker;
* `src/backend/sqlite_queue.py` — the SQLite-backed task queue
  (enqueue / dequeue / complete_task / fail_task);
* `src/backend/tasks.py` — the document-processing orchestrator and the
  embedding fallback.

Timestamps are modelled as rationals (the queue's unit is minutes, matching
`timedelta(minutes=...)` in `fail_task`); Python exception values are
modelled by the inductive `PyError`, keyed by the classes the code
inspects with `isinstance` / `except` clauses.
-/

namespace DocAnalysis

/-- Substring test used to model Python's `"pat" in s`: does `pat` occur as a
contiguous substring of `hay`? `begMatch p h` checks that `p` starts `h`. -/
def begMatch : List Char → List Char → Bool
  | [], _ => true
  | _ :: _, [] => false
  | p :: ps, h :: hs => p == h && begMatch ps hs

/-- Predicate `subMatch pat hay` is true iff `pat` occurs contiguously inside `hay`. -/
def subMatch : List Char → List Char → Bool
  | pat, [] => begMatch pat []
  | pat, h :: hs => begMatch pat (h :: hs) || subMatch pat hs

/-- Python `pat in hay` on strings. -/
def strContains (hay pat : String) : Bool :=
  subMatch pat.toList hay.toList

/-- Python `s.lower()` (character-wise, which agrees on the ASCII keyword
patterns the classifier uses). -/
def pyLower (s : String) : String :=
  String.mk (s.data.map Char.toLower)

namespace ErrH

/-- The `ErrorType` enum from `error_handler.py`. -/
inductive ErrorType where
  | network_error
  | api_error
  | file_error
  | parsing_error
  | database_error
  | unknown_error
deriving DecidableEq, Repr

/-- Python exception values as the code distinguishes them: the two custom
typed classes `RetryableError` / `NonRetryableError` (carrying a message and
an `ErrorType`), the builtin classes the code checks with `isinstance` or
`except` clauses, and a catch-all `generic` exception carrying its message.
`connectionError`, `timeoutError` and `ioError` model Python's
`ConnectionError`, `TimeoutError` and `IOError` (= `OSError`); note that in
Python `FileNotFoundError`, `PermissionError`, `ConnectionError` and
`TimeoutError` are all subclasses of `OSError`. -/
inductive PyError where
  | retryableError (message : String) (etype : ErrorType)
  | nonRetryableError (message : String) (etype : ErrorType)
  | fileNotFoundError (message : String)
  | permissionError (message : String)
  | ioError (message : String)
  | connectionError (message : String)
  | timeoutError (message : String)
  | generic (message : String)
deriving DecidableEq, Repr

/-- Python `str(e)` for the modelled exceptions (all carry their message). -/
def msgOf : PyError → String
  | .retryableError m _ => m
  | .nonRetryableError m _ => m
  | .fileNotFoundError m => m
  | .permissionError m => m
  | .ioError m => m
  | .connectionError m => m
  | .timeoutError m => m
  | .generic m => m

/-- Membership in the default `retryable_exceptions` tuple
`(RetryableError, ConnectionError, TimeoutError)` of `retry_with_backoff`. -/
def isRetryableExc : PyError → Bool
  | .retryableError _ _ => true
  | .connectionError _ => true
  | .timeoutError _ => true
  | _ => false

/-- Python `isinstance(e, NonRetryableError)`. -/
def isNonRetryableExc : PyError → Bool
  | .nonRetryableError _ _ => true
  | _ => false

/-- The error kind carried by a typed error, if any. -/
def kindOf : PyError → Option ErrorType
  | .retryableError _ t => some t
  | .nonRetryableError _ t => some t
  | _ => none

/-- Model of `ErrorHandler.handle_file_error`: the `isinstance` chain.  A
`ConnectionError`/`TimeoutError` lands in the `IOError` branch because both
are `OSError` subclasses in Python. -/
def handle_file_error (e : PyError) (file_path : String) : PyError :=
  match e with
  | .fileNotFoundError _ =>
      .nonRetryableError ("文件不存在: " ++ file_path) .file_error
  | .permissionError _ =>
      .nonRetryableError ("文件权限错误: " ++ file_path) .file_error
  | .ioError _ =>
      .retryableError ("文件IO错误: " ++ file_path) .file_error
  | .connectionError _ =>
      .retryableError ("文件IO错误: " ++ file_path) .file_error
  | .timeoutError _ =>
      .retryableError ("文件IO错误: " ++ file_path) .file_error
  | _ =>
      .nonRetryableError ("文件处理错误: " ++ msgOf e) .file_error

/-- Model of `ErrorHandler.handle_api_error`: keyword matching on `str(e).lower()`. -/
def handle_api_error (e : PyError) (api_name : String) : PyError :=
  let m := pyLower (msgOf e)
  if strContains m "rate limit" || strContains m "quota" then
    .retryableError (api_name ++ " API限额错误: " ++ msgOf e) .api_error
  else if strContains m "timeout" then
    .retryableError (api_name ++ " API超时: " ++ msgOf e) .api_error
  else if strContains m "connection" || strContains m "network" then
    .retryableError (api_name ++ " 网络连接错误: " ++ msgOf e) .network_error
  else if strContains m "unauthorized" || strContains m "authentication" then
    .nonRetryableError (api_name ++ " 认证失败: " ++ msgOf e) .api_error
  else if strContains m "bad request" || strContains m "invalid" then
    .nonRetryableError (api_name ++ " 请求参数错误: " ++ msgOf e) .api_error
  else
    .retryableError (api_name ++ " API错误: " ++ msgOf e) .api_error

/-- Model of `ErrorHandler.handle_database_error`. -/
def handle_database_error (e : PyError) (operation : String) : PyError :=
  let m := pyLower (msgOf e)
  if strContains m "connection" || strContains m "timeout" then
    .retryableError ("数据库连接错误 (" ++ operation ++ "): " ++ msgOf e) .database_error
  else if strContains m "lock" || strContains m "busy" then
    .retryableError ("数据库忙碌 (" ++ operation ++ "): " ++ msgOf e) .database_error
  else if strContains m "disk" || strContains m "space" then
    .nonRetryableError ("数据库存储空间不足 (" ++ operation ++ "): " ++ msgOf e) .database_error
  else
    .retryableError ("数据库操作错误 (" ++ operation ++ "): " ++ msgOf e) .database_error

/-- Model of `ErrorHandler.handle_parsing_error`. -/
def handle_parsing_error (e : PyError) (file_name : String) : PyError :=
  let m := pyLower (msgOf e)
  if strContains m "corrupted" || strContains m "damaged" then
    .nonRetryableError ("文档损坏 (" ++ file_name ++ "): " ++ msgOf e) .parsing_error
  else if strContains m "unsupported" || strContains m "format" then
    .nonRetryableError ("不支持的文档格式 (" ++ file_name ++ "): " ++ msgOf e) .parsing_error
  else if strContains m "memory" || strContains m "resource" then
    .retryableError ("解析资源不足 (" ++ file_name ++ "): " ++ msgOf e) .parsing_error
  else
    .retryableError ("文档解析错误 (" ++ file_name ++ "): " ++ msgOf e) .parsing_error

/-- The classification step of `log_and_handle_error` (the dispatch on
`str(error).lower()` and the final return value); the side effects
(`error_tracker.record_error` and logging) are modelled separately by
`TaskErrorTracker.record_error`. -/
def log_and_handle_classify (error : PyError) (context : String) : PyError :=
  let m := pyLower (msgOf error)
  if strContains m "openai" || strContains m "api" then
    handle_api_error error "OpenAI"
  else if strContains m "file" || strContains m "path" then
    handle_file_error error context
  else if strContains m "database" || strContains m "chroma" then
    handle_database_error error context
  else if strContains m "parse" || strContains m "mineru" then
    handle_parsing_error error context
  else
    .retryableError ("未分类错误: " ++ msgOf error) .unknown_error

/-- The exponential-backoff delay computed at line 76 of `error_handler.py`:
`min(base_delay * (backoff_factor ** attempt), max_delay)`. -/
def backoffDelay (base_delay backoff_factor max_delay : ℚ) (attempt : ℕ) : ℚ :=
  min (base_delay * backoff_factor ^ attempt) max_delay

/-- Outcome of one invocation of the wrapped callable: either a returned
value or a raised exception. -/
inductive CallOutcome (α : Type) where
  | ok (v : α)
  | exn (e : PyError)
deriving DecidableEq, Repr

/-- Observable result of running the retry wrapper: the returned value or the
raised exception (`Except.error none` models the unreachable
`raise last_exception` at line 91 when `last_exception` is still `None`),
together with how many times the callable was invoked and which sleep
durations were performed, in order. -/
structure RunOut (α : Type) where
  result : Except (Option PyError) α
  invocations : ℕ
  sleeps : List ℚ
deriving Repr

/-- The `NonRetryableError` wrapping an unrecognized exception at line 88. -/
def wrapUnknown (e : PyError) : PyError :=
  .nonRetryableError ("未知错误: " ++ msgOf e) .unknown_error

/-- The `for attempt in range(max_retries + 1)` loop of `retry_with_backoff`.
The callable is modelled by `ops`, giving the outcome of its `attempt`-th
invocation.  `fuel` counts the loop iterations still to run (entered with
`max_retries + 1`); when it reaches `0` the loop has completed and line 91
raises `last_exception`. -/
def retryGo (ops : ℕ → CallOutcome α) (max_retries : ℕ)
    (base_delay backoff_factor max_delay : ℚ) :
    ℕ → ℕ → Option PyError → ℕ → List ℚ → RunOut α
  | 0, _attempt, lastExc, invs, sleeps => ⟨.error lastExc, invs, sleeps⟩
  | fuel + 1, attempt, _lastExc, invs, sleeps =>
    match ops attempt with
    | .ok v => ⟨.ok v, invs + 1, sleeps⟩
    | .exn e =>
      if isRetryableExc e then
        if attempt = max_retries then
          ⟨.error (some e), invs + 1, sleeps⟩
        else
          retryGo ops max_retries base_delay backoff_factor max_delay
            fuel (attempt + 1) (some e) (invs + 1)
            (sleeps ++ [backoffDelay base_delay backoff_factor max_delay attempt])
      else if isNonRetryableExc e then
        ⟨.error (some e), invs + 1, sleeps⟩
      else
        ⟨.error (some (wrapUnknown e)), invs + 1, sleeps⟩

/-- Model of `retry_with_backoff(max_retries, base_delay, max_delay, backoff_factor)`
applied to a callable whose successive invocation outcomes are `ops`. -/
def retry_with_backoff (ops : ℕ → CallOutcome α) (max_retries : ℕ)
    (base_delay backoff_factor max_delay : ℚ) : RunOut α :=
  retryGo ops max_retries base_delay backoff_factor max_delay
    (max_retries + 1) 0 none 0 []

/-- All invocations strictly before attempt `i` raised an exception caught by
the `retryable_exceptions` clause. -/
def retryablePrefixB (ops : ℕ → CallOutcome α) (i : ℕ) : Bool :=
  (List.range i).all fun j =>
    match ops j with
    | .exn e => isRetryableExc e
    | .ok _ => false

/-- One record of `TaskErrorTracker.error_history`. -/
structure ErrorRecord where
  task_id : String
  error_type : String
  error_message : String
  timestamp : ℚ
deriving DecidableEq, Repr

/-- The `TaskErrorTracker` state: the per-task counters and the rolling
history. -/
structure TaskErrorTracker where
  error_counts : List (String × ℕ)
  error_history : List ErrorRecord
deriving DecidableEq, Repr

/-- Fresh tracker (`TaskErrorTracker.__init__`). -/
def TaskErrorTracker.empty : TaskErrorTracker := ⟨[], []⟩

/-- Increment of `self.error_counts[task_id]` (insert at `0` first if the key
is absent, as the Python does). -/
def bumpCount : List (String × ℕ) → String → List (String × ℕ)
  | [], tid => [(tid, 1)]
  | (k, n) :: rest, tid =>
    if k = tid then (k, n + 1) :: rest else (k, n) :: bumpCount rest tid

/-- Model of `TaskErrorTracker.record_error`: bump the counter, append the record and
trim the history to its last 500 entries (`self.error_history[-500:]`) when
its length exceeds 1000. -/
def TaskErrorTracker.record_error (t : TaskErrorTracker) (r : ErrorRecord) :
    TaskErrorTracker :=
  let counts := bumpCount t.error_counts r.task_id
  let hist := t.error_history ++ [r]
  let hist := if hist.length > 1000 then hist.drop (hist.length - 500) else hist
  ⟨counts, hist⟩

/-- Python `self.error_counts.get(task_id, 0)`. -/
def TaskErrorTracker.get_error_count (t : TaskErrorTracker) (tid : String) : ℕ :=
  match t.error_counts.find? (fun p => p.1 == tid) with
  | some p => p.2
  | none => 0

/-- Model of `TaskErrorTracker.should_skip_task`. -/
def TaskErrorTracker.should_skip_task (t : TaskErrorTracker) (tid : String)
    (max_errors : ℕ) : Bool :=
  max_errors ≤ t.get_error_count tid

/-- Running `record_error` `n` times from tracker `t`, inserting the records
`recs 0, recs 1, ...` in that order. -/
def recordMany (recs : ℕ → ErrorRecord) (t : TaskErrorTracker) : ℕ → TaskErrorTracker
  | 0 => t
  | n + 1 => (recordMany recs t n).record_error (recs n)

end ErrH

namespace Queue

/-- Task statuses of the `task_queue` table. -/
inductive Status where
  | pending
  | processing
  | retry
  | completed
  | failed
deriving DecidableEq, Repr

/-- One row of the `task_queue` table.  Timestamps are rationals measured in
minutes, so that `fail_task`'s `timedelta(minutes=2 ** retry_count)` is the
addition of `2 ^ retry_count`. -/
structure QTask where
  id : String
  task_name : String
  args : String
  kwargs : String
  status : Status
  created_at : ℚ
  started_at : Option ℚ
  completed_at : Option ℚ
  retry_count : ℕ
  max_retries : ℕ
  next_retry_at : Option ℚ
  result : Option String
  error_message : Option String
deriving DecidableEq, Repr

/-- The table, in rowid (insertion) order. -/
abbrev QState := List QTask

/-- Model of `SQLiteTaskQueue.enqueue`: insert a row with the schema defaults
(`status='pending'`, `created_at=CURRENT_TIMESTAMP`, `retry_count=0`,
`max_retries=3`, everything else `NULL`). -/
def enqueue (now : ℚ) (st : QState) (tid task_name args kwargs : String) : QState :=
  st ++ [{ id := tid, task_name := task_name, args := args, kwargs := kwargs,
           status := .pending, created_at := now, started_at := none,
           completed_at := none, retry_count := 0, max_retries := 3,
           next_retry_at := none, result := none, error_message := none }]

/-- The `WHERE` clause of `dequeue`'s `SELECT`:
`status IN ('pending','retry') AND (next_retry_at IS NULL OR next_retry_at <= now)`. -/
def claimable (now : ℚ) (t : QTask) : Bool :=
  (t.status == .pending || t.status == .retry) &&
    (match t.next_retry_at with
     | none => true
     | some r => decide (r ≤ now))

/-- The `ORDER BY created_at ASC LIMIT 1` selection over the claimable rows: the first row
(in table order) among those with minimal `created_at`. -/
def pickOldest (now : ℚ) : QState → Option QTask
  | [] => none
  | t :: ts =>
    match pickOldest now ts with
    | none => if claimable now t then some t else none
    | some u =>
      if claimable now t && decide (t.created_at ≤ u.created_at) then some t
      else some u

/-- The dictionary `dequeue` returns for a claimed row. -/
structure DequeuedRow where
  id : String
  task_name : String
  args : String
  kwargs : String
  retry_count : ℕ
deriving DecidableEq, Repr

/-- The row view `dequeue` builds from the claimed task. -/
def rowView (t : QTask) : DequeuedRow :=
  ⟨t.id, t.task_name, t.args, t.kwargs, t.retry_count⟩

/-- The row update `dequeue` applies to the claimed task
(`SET status = 'processing', started_at = now`). -/
def claimUpd (now : ℚ) (t : QTask) : QTask :=
  { t with status := .processing, started_at := some now }

/-- Model of `SQLiteTaskQueue.dequeue`: under `self.lock`, select the oldest claimable
row; if none, return `None` leaving the table unchanged; otherwise set its
`status` to `processing`, stamp `started_at`, and return its view. -/
def dequeue (now : ℚ) (st : QState) : Option DequeuedRow × QState :=
  match pickOldest now st with
  | none => (none, st)
  | some t =>
    (some (rowView t),
     st.map fun u => if u.id = t.id then claimUpd now u else u)

/-- Model of `SQLiteTaskQueue.complete_task`. -/
def complete_task (now : ℚ) (st : QState) (tid : String) (result : Option String) :
    QState :=
  st.map fun u =>
    if u.id = tid then
      { u with status := .completed, completed_at := some now, result := result }
    else u

/-- Model of `SQLiteTaskQueue.fail_task`: look the row up; if absent, return; if
`retry and retry_count < max_retries`, reschedule with
`next_retry_at = now + 2 ** retry_count` (minutes) and `retry_count + 1`;
otherwise mark the row `failed`. -/
def fail_task (now : ℚ) (st : QState) (tid error_message : String) (retry : Bool) :
    QState :=
  match st.find? (fun u => u.id == tid) with
  | none => st
  | some row =>
    if retry && decide (row.retry_count < row.max_retries) then
      st.map fun u =>
        if u.id = tid then
          { u with status := .retry, retry_count := row.retry_count + 1,
                   next_retry_at := some (now + 2 ^ row.retry_count),
                   error_message := some error_message }
        else u
    else
      st.map fun u =>
        if u.id = tid then
          { u with status := .failed, error_message := some error_message }
        else u

/-- The row `SELECT ... WHERE id = tid` fetches (first match). -/
def getTask (st : QState) (tid : String) : Option QTask :=
  st.find? (fun u => u.id == tid)

/-- Number of claimable rows. -/
def claimableCount (now : ℚ) (st : QState) : ℕ :=
  (st.filter (claimable now)).length

/-- A sample claimable pending row (used to instantiate the queue
theorems on concrete inputs). -/
def sampleTask (tid : String) (created : ℚ) : QTask :=
  { id := tid, task_name := "process_document", args := "[]", kwargs := "\x7b\x7d",
    status := .pending, created_at := created, started_at := none,
    completed_at := none, retry_count := 0, max_retries := 3,
    next_retry_at := none, result := none, error_message := none }

/-- A sample two-row table: `"b"` enqueued at time 5, `"a"` at time 3. -/
def sampleQueue : QState := [sampleTask "b" 5, sampleTask "a" 3]

/-- A sample row with `max_retries = 2` (the scenario of the spec). -/
def sampleTaskM2 : QTask :=
  { sampleTask "t" 0 with max_retries := 2 }

/-- Runs `k` successive `dequeue` calls (the `self.lock` mutex serializes
concurrent callers, so a group of simultaneous calls executes as some
sequence of atomic select-and-update steps): returns the per-caller results
in order and the final table. -/
def dequeueN (now : ℚ) : ℕ → QState → List (Option DequeuedRow) × QState
  | 0, st => ([], st)
  | k + 1, st =>
    let p := dequeue now st
    let q := dequeueN now k p.2
    (p.1 :: q.1, q.2)

end Queue

namespace Tasks

open ErrH

/-- The fields of the file record `process_document` reads. -/
structure FileRecord where
  filepath : String
  filename : String
deriving DecidableEq, Repr

/-- Parsed content as `process_document` consumes it. -/
structure Parsed where
  content : String
  total_pages : Option ℕ
deriving DecidableEq, Repr

/-- A document chunk (only its presence matters to the claims). -/
abbrev Chunk := String

/-- The four pipeline stage invocations. -/
inductive Stage where
  | parsing
  | chunking
  | embedding
  | storing
deriving DecidableEq, Repr

/-- Environment of one `process_document` run: the circuit-breaker verdict,
the file record lookup, and the outcome of each `*_with_retry` stage call
(each already includes its own wrapper-level retries; a raised exception is
always a typed `RetryableError`/`NonRetryableError`, which is what the stage
wrappers raise). -/
structure PDEnv where
  should_skip : Bool
  error_count : ℕ
  file_record : Option FileRecord
  parse : Except PyError Parsed
  chunk : Parsed → Except PyError (List Chunk)
  embed : List Chunk → Except PyError (List (List ℚ))
  store : List Chunk → List (List ℚ) → Except PyError Unit

/-- How one `process_document` run ends. -/
inductive PDOutcome where
  | returned (chunks_count : ℕ)
  | skipped
  | raised (e : PyError)
  | celeryRetry (e : PyError)
deriving DecidableEq, Repr

/-- Observable trace of one `process_document` run: the
`update_file_status` calls `(status, progress, message)` in order, the stage
invocations in order, and how the run ended. -/
structure PDOut where
  updates : List (String × ℕ × String)
  invoked : List Stage
  outcome : PDOutcome
deriving DecidableEq, Repr

/-- The two `except` handlers at the end of `process_document`:
`NonRetryableError` is caught first (status `error`/0, re-raise); any other
exception is re-classified by `log_and_handle_error`, the status is set to
`error`/0, and a retryable classification triggers `self.retry` while a
non-retryable one re-raises the original exception. -/
def handleFailure (updates : List (String × ℕ × String)) (invoked : List Stage)
    (e : PyError) : PDOut :=
  if isNonRetryableExc e then
    ⟨updates ++ [("error", 0, "❌ 处理失败 (不可重试): " ++ msgOf e)], invoked, .raised e⟩
  else
    let handled := log_and_handle_classify e "document_processing"
    let updates := updates ++ [("error", 0, "❌ 处理失败: " ++ msgOf handled)]
    if isRetryableExc handled then ⟨updates, invoked, .celeryRetry e⟩
    else ⟨updates, invoked, .raised e⟩

/-- Model of `process_document` (`tasks.py` lines 93–206): circuit-breaker check,
file-record lookup, then the four stages in sequence with their
`update_file_status` calls, any raised stage exception flowing to
`handleFailure`. -/
def process_document (env : PDEnv) : PDOut :=
  if env.should_skip then
    ⟨[("error", 0,
       "❌ 任务跳过: 错误次数过多 (" ++ toString env.error_count ++ " 次)")],
     [], .skipped⟩
  else
    match env.file_record with
    | none =>
      handleFailure [] [] (.nonRetryableError "文件信息不存在" .file_error)
    | some _ =>
      let u1 := [("parsing", 10, "MinerU解析中...")]
      match env.parse with
      | .error e => handleFailure u1 [.parsing] e
      | .ok parsed =>
        let u2 := u1 ++ [("parsing", 30, "文档解析完成"),
                         ("chunking", 40, "智能分块中...")]
        match env.chunk parsed with
        | .error e => handleFailure u2 [.parsing, .chunking] e
        | .ok chunks =>
          let u3 := u2 ++
            [("chunking", 60, "分块完成，共" ++ toString chunks.length ++ "块"),
             ("embedding", 70, "向量化中...")]
          match env.embed chunks with
          | .error e => handleFailure u3 [.parsing, .chunking, .embedding] e
          | .ok embeddings =>
            let u4 := u3 ++ [("embedding", 90, "向量化完成"),
                             ("storing", 95, "存储向量中...")]
            match env.store chunks embeddings with
            | .error e =>
              handleFailure u4 [.parsing, .chunking, .embedding, .storing] e
            | .ok _ =>
              ⟨u4 ++ [("completed", 100, "✅ 处理完成")],
               [.parsing, .chunking, .embedding, .storing],
               .returned chunks.length⟩

/-- Model of `parse_document_with_retry`: the parsing stage body (try the engine,
classify and re-raise any failure) run under
`retry_with_backoff(max_retries=2, base_delay=1.0)`. -/
def parse_document_with_retry (engine : ℕ → CallOutcome Parsed) : RunOut Parsed :=
  retry_with_backoff
    (fun i =>
      match engine i with
      | .ok v => .ok v
      | .exn e => .exn (log_and_handle_classify e "parsing"))
    2 1 2 60

/-- Model of `fallback_embeddings`: one 768-dimensional vector per chunk, entries
drawn from the random generator. -/
def fallback_embeddings (rng : ℕ → ℕ → ℚ) (chunks : List Chunk) :
    List (List ℚ) :=
  (List.range chunks.length).map fun i => (List.range 768).map fun j => rng i j

/-- Model of `generate_embeddings`: try the Ollama engine; on any exception fall back
to `fallback_embeddings` instead of propagating. -/
def generate_embeddings (engine : List Chunk → Except PyError (List (List ℚ)))
    (rng : ℕ → ℕ → ℚ) (chunks : List Chunk) : List (List ℚ) :=
  match engine chunks with
  | .ok es => es
  | .error _ => fallback_embeddings rng chunks

end Tasks

namespace ErrH

/-- The value of `last_exception` after the attempts `0, ..., i-1` have run
(meaningful when those attempts all raised retryable exceptions). -/
def lastErrOf (ops : ℕ → CallOutcome α) : ℕ → Option PyError
  | 0 => none
  | j + 1 =>
    match ops j with
    | .exn e => some e
    | .ok _ => none

end ErrH

namespace Queue

/-- The `retry_count <= max_retries` row invariant. -/
def RCInv (st : QState) : Prop :=
  ∀ t ∈ st, t.retry_count ≤ t.max_retries

instance (st : QState) : Decidable (RCInv st) := by
  unfold RCInv; infer_instance

/-- Row ids are pairwise distinct (`id` is the table's primary key). -/
def IdsNodup (st : QState) : Prop :=
  (st.map (fun t => t.id)).Nodup

instance (st : QState) : Decidable (IdsNodup st) := by
  unfold IdsNodup; infer_instance

end Queue

/-! ## Theorems -/

/-- C4: For all attempt counts `n ≥ 0` and all positive `base_delay`,
`backoff_factor ≥ 1` and positive `max_delay`, the retry wrapper's computed
delay equals `min(base_delay * backoff_factor^n, max_delay)`, and the delay
function is non-decreasing in `n`. -/
theorem C4_backoff_delay_formula_and_monotone
    (base factor maxd : ℚ) (hb : 0 < base) (hf : 1 ≤ factor) (_hm : 0 < maxd) :
    (∀ n : ℕ, ErrH.backoffDelay base factor maxd n = min (base * factor ^ n) maxd) ∧
    (∀ n₁ n₂ : ℕ, n₁ ≤ n₂ →
      ErrH.backoffDelay base factor maxd n₁ ≤ ErrH.backoffDelay base factor maxd n₂) := by
  constructor
  · intro n
    rfl
  · intro n₁ n₂ h
    unfold ErrH.backoffDelay
    refine min_le_min ?_ le_rfl
    exact mul_le_mul_of_nonneg_left (pow_le_pow_right₀ hf h) hb.le

/-- Witness for C4 at `base = 1`, `factor = 2`, `maxd = 60`, `n₁ = 2`,
`n₂ = 3`. -/
theorem C4_backoff_delay_formula_and_monotone_witness :
    ErrH.backoffDelay 1 2 60 2 = min ((1 : ℚ) * 2 ^ 2) 60 ∧
    ErrH.backoffDelay 1 2 60 2 ≤ ErrH.backoffDelay 1 2 60 3 := by
  have h := C4_backoff_delay_formula_and_monotone 1 2 60 (by norm_num) (by norm_num)
    (by norm_num)
  exact ⟨h.1 2, h.2 2 3 (by norm_num)⟩

/-- Helper for C8: as long as at most 1000 records have been inserted into
an initially empty tracker, the history holds all of them, in order. -/
theorem recordMany_history_below_cap (recs : ℕ → ErrH.ErrorRecord) :
    ∀ n, n ≤ 1000 →
      (ErrH.recordMany recs .empty n).error_history = (List.range n).map recs := by
  intro n
  induction n with
  | zero => intro _; rfl
  | succ m ih =>
    intro hm
    have hhist := ih (by omega)
    show (ErrH.TaskErrorTracker.record_error _ _).error_history = _
    unfold ErrH.TaskErrorTracker.record_error
    dsimp only
    rw [hhist]
    rw [if_neg (by simp; omega)]
    rw [List.range_succ, List.map_append]
    rfl

/-- C8: the error history never exceeds 1000 entries after a
`record_error` call, and the 1001st consecutive insertion into an initially
empty tracker trims the history to exactly the 500 most recent entries. -/
theorem C8_error_history_bounded_and_trimmed :
    (∀ (t : ErrH.TaskErrorTracker) (r : ErrH.ErrorRecord),
        (t.record_error r).error_history.length ≤ 1000) ∧
    (∀ recs : ℕ → ErrH.ErrorRecord,
        (ErrH.recordMany recs .empty 1001).error_history =
          ((List.range 1001).map recs).drop 501 ∧
        (ErrH.recordMany recs .empty 1001).error_history.length = 500) := by
  constructor
  · intro t r
    unfold ErrH.TaskErrorTracker.record_error
    dsimp only
    split
    · simp only [List.length_drop]
      omega
    · rename_i h
      simp only [List.length_append, List.length_cons, List.length_nil] at h ⊢
      omega
  · intro recs
    have h1000 := recordMany_history_below_cap recs 1000 (by omega)
    have hstep :
        (ErrH.recordMany recs .empty 1001).error_history =
          ((List.range 1001).map recs).drop 501 := by
      show (ErrH.TaskErrorTracker.record_error _ _).error_history = _
      unfold ErrH.TaskErrorTracker.record_error
      dsimp only
      rw [h1000]
      rw [if_pos (by simp)]
      conv_rhs => rw [List.range_succ, List.map_append]
      simp
    refine ⟨hstep, ?_⟩
    rw [hstep]
    simp

/-- Helper for C1: unpacking `retryablePrefixB`. -/
theorem retryablePrefixB_elem {α : Type} {ops : ℕ → ErrH.CallOutcome α} {i : ℕ}
    (h : ErrH.retryablePrefixB ops i = true) {j : ℕ} (hj : j < i) :
    ∃ e, ops j = .exn e ∧ ErrH.isRetryableExc e = true := by
  unfold ErrH.retryablePrefixB at h
  rw [List.all_eq_true] at h
  have hmem := h j (List.mem_range.mpr hj)
  cases hops : ops j with
  | ok v => rw [hops] at hmem; simp at hmem
  | exn e => rw [hops] at hmem; exact ⟨e, rfl, hmem⟩

/-- Helper for C1: a prefix of retryable failures of length `i + 1` restricts
to one of length `i`. -/
theorem retryablePrefixB_of_succ {α : Type} {ops : ℕ → ErrH.CallOutcome α} {i : ℕ}
    (h : ErrH.retryablePrefixB ops (i + 1) = true) :
    ErrH.retryablePrefixB ops i = true := by
  unfold ErrH.retryablePrefixB at h ⊢
  rw [List.all_eq_true] at h ⊢
  intro j hj
  exact h j (List.mem_range.mpr (by have := List.mem_range.mp hj; omega))

/-- Helper for C1: after `i ≤ max_retries` retryable failures the wrapper's
loop stands at attempt `i`, having slept the backoff delays of attempts
`0, ..., i-1`. -/
theorem retryGo_reach {α : Type} (ops : ℕ → ErrH.CallOutcome α) (mr : ℕ)
    (b f m : ℚ) :
    ∀ i, i ≤ mr → ErrH.retryablePrefixB ops i = true →
      ErrH.retry_with_backoff ops mr b f m =
        ErrH.retryGo ops mr b f m (mr + 1 - i) i (ErrH.lastErrOf ops i) i
          ((List.range i).map (ErrH.backoffDelay b f m)) := by
  intro i
  induction i with
  | zero => intro _ _; rfl
  | succ j ih =>
    intro hle hpre
    obtain ⟨e, he, hre⟩ := retryablePrefixB_elem hpre (Nat.lt_succ_self j)
    rw [ih (by omega) (retryablePrefixB_of_succ hpre)]
    have hw : mr + 1 - j = (mr + 1 - (j + 1)) + 1 := by omega
    rw [hw]
    simp only [ErrH.retryGo, he, hre, if_true]
    rw [if_neg (by omega : ¬ j = mr)]
    have hlast : ErrH.lastErrOf ops (j + 1) = some e := by
      simp only [ErrH.lastErrOf, he]
    rw [hlast, List.range_succ, List.map_append]
    rfl

/-- Helper for C1: the wrapper never swallows a failure — the unreachable
`raise last_exception` with `last_exception = None` never surfaces, and a
returned value always comes from an actual invocation of the callable. -/
theorem retryGo_no_swallow {α : Type} (ops : ℕ → ErrH.CallOutcome α) (mr : ℕ)
    (b f m : ℚ) :
    ∀ (fuel attempt : ℕ) (lastExc : Option ErrH.PyError) (invs : ℕ)
      (sleeps : List ℚ), attempt + fuel = mr + 1 →
      (lastExc = none → 0 < fuel) →
      (ErrH.retryGo ops mr b f m fuel attempt lastExc invs sleeps).result ≠
        .error none ∧
      (∀ v,
        (ErrH.retryGo ops mr b f m fuel attempt lastExc invs sleeps).result =
          .ok v → ∃ i, i ≤ mr ∧ ops i = .ok v) := by
  intro fuel
  induction fuel with
  | zero =>
    intro attempt lastExc invs sleeps _ hl
    cases lastExc with
    | none => exact absurd (hl rfl) (by omega)
    | some e =>
      constructor
      · intro hc
        simp [ErrH.retryGo] at hc
      · intro v hv
        simp [ErrH.retryGo] at hv
  | succ fuel ih =>
    intro attempt lastExc invs sleeps harith _
    simp only [ErrH.retryGo]
    cases hops : ops attempt with
    | ok v =>
      constructor
      · intro hc
        simp at hc
      · intro w hw
        simp at hw
        exact ⟨attempt, by omega, by rw [hops, hw]⟩
    | exn e =>
      dsimp only
      by_cases hre : ErrH.isRetryableExc e = true
      · rw [if_pos hre]
        by_cases hat : attempt = mr
        · rw [if_pos hat]
          exact ⟨by simp, by simp⟩
        · rw [if_neg hat]
          exact ih (attempt + 1) (some e) (invs + 1) _ (by omega)
            (by intro h; cases h)
      · rw [if_neg hre]
        by_cases hnr : ErrH.isNonRetryableExc e = true
        · rw [if_pos hnr]
          exact ⟨by simp, by simp⟩
        · rw [if_neg hnr]
          exact ⟨by simp, by simp⟩

/-- C1: contract of the retry wrapper.  After a prefix of retryable failures:
a success at attempt `i` returns its value, having invoked the callable
`i + 1` times and slept exactly the computed backoff delays; a retryable
failure at the last attempt (`i = max_retries`) re-raises that last failure;
a non-retryable failure is raised immediately with no further invocation and
no further sleep; an unrecognized failure is raised immediately, wrapped as a
non-retryable `Unknown` error; and no path swallows a failure — the result
is the operation's value (from an actual invocation) or a raised failure. -/
theorem C1_retry_with_backoff_contract {α : Type} (ops : ℕ → ErrH.CallOutcome α)
    (mr : ℕ) (b f m : ℚ) :
    (∀ i v, i ≤ mr → ErrH.retryablePrefixB ops i = true → ops i = .ok v →
      ErrH.retry_with_backoff ops mr b f m =
        ⟨.ok v, i + 1, (List.range i).map (ErrH.backoffDelay b f m)⟩) ∧
    (∀ e, ErrH.retryablePrefixB ops mr = true → ops mr = .exn e →
      ErrH.isRetryableExc e = true →
      ErrH.retry_with_backoff ops mr b f m =
        ⟨.error (some e), mr + 1, (List.range mr).map (ErrH.backoffDelay b f m)⟩) ∧
    (∀ i e, i ≤ mr → ErrH.retryablePrefixB ops i = true → ops i = .exn e →
      ErrH.isNonRetryableExc e = true →
      ErrH.retry_with_backoff ops mr b f m =
        ⟨.error (some e), i + 1, (List.range i).map (ErrH.backoffDelay b f m)⟩) ∧
    (∀ i e, i ≤ mr → ErrH.retryablePrefixB ops i = true → ops i = .exn e →
      ErrH.isRetryableExc e = false → ErrH.isNonRetryableExc e = false →
      ErrH.retry_with_backoff ops mr b f m =
        ⟨.error (some (ErrH.wrapUnknown e)), i + 1,
          (List.range i).map (ErrH.backoffDelay b f m)⟩) ∧
    ((ErrH.retry_with_backoff ops mr b f m).result ≠ .error none) ∧
    (∀ v, (ErrH.retry_with_backoff ops mr b f m).result = .ok v →
      ∃ i, i ≤ mr ∧ ops i = .ok v) := by
  refine ⟨?_, ?_, ?_, ?_, ?_, ?_⟩
  · intro i v hle hpre hops
    rw [retryGo_reach ops mr b f m i hle hpre]
    have hw : mr + 1 - i = (mr - i) + 1 := by omega
    rw [hw]
    simp only [ErrH.retryGo, hops]
  · intro e hpre hops hre
    rw [retryGo_reach ops mr b f m mr le_rfl hpre]
    have hw : mr + 1 - mr = 0 + 1 := by omega
    rw [hw]
    simp only [ErrH.retryGo, hops, hre, if_true, if_pos rfl]
  · intro i e hle hpre hops hnr
    have hre : ErrH.isRetryableExc e = false := by
      cases e <;> simp [ErrH.isNonRetryableExc] at hnr ⊢ <;> simp [ErrH.isRetryableExc]
    rw [retryGo_reach ops mr b f m i hle hpre]
    have hw : mr + 1 - i = (mr - i) + 1 := by omega
    rw [hw]
    simp only [ErrH.retryGo, hops, hre, hnr]
    simp
  · intro i e hle hpre hops hre hnr
    rw [retryGo_reach ops mr b f m i hle hpre]
    have hw : mr + 1 - i = (mr - i) + 1 := by omega
    rw [hw]
    simp only [ErrH.retryGo, hops, hre, hnr]
    simp
  · exact (retryGo_no_swallow ops mr b f m (mr + 1) 0 none 0 [] (by omega)
      (fun _ => by omega)).1
  · exact (retryGo_no_swallow ops mr b f m (mr + 1) 0 none 0 [] (by omega)
      (fun _ => by omega)).2

/-- Witness for C1: one retryable failure followed by a success, under
`max_retries = 2`, `base_delay = 1`, `backoff_factor = 2`, `max_delay = 60`. -/
theorem C1_retry_with_backoff_contract_witness :
    ErrH.retry_with_backoff
        (fun n => if n = 0
          then .exn (.retryableError "temporary" .api_error) else .ok 7)
        2 1 2 60 =
      ⟨.ok 7, 2, [ErrH.backoffDelay 1 2 60 0]⟩ := by
  have h := (C1_retry_with_backoff_contract
    (fun n => if n = 0
      then .exn (.retryableError "temporary" .api_error) else .ok (7 : ℕ))
    2 1 2 60).1 1 7 (by omega) (by decide) (by rfl)
  rw [h]
  rfl

/-- Helper: `pickOldest` returns `none` exactly when no row is claimable. -/
theorem pickOldest_none_iff (now : ℚ) (st : Queue.QState) :
    Queue.pickOldest now st = none ↔ ∀ t ∈ st, Queue.claimable now t = false := by
  induction st with
  | nil => simp [Queue.pickOldest]
  | cons a ts ih =>
    constructor
    · intro h u hu
      simp only [Queue.pickOldest] at h
      cases hp : Queue.pickOldest now ts with
      | none =>
        rw [hp] at h
        dsimp only at h
        by_cases hc : Queue.claimable now a = true
        · rw [if_pos hc] at h
          exact absurd h (by simp)
        · rcases List.mem_cons.mp hu with rfl | hm
          · simpa using hc
          · exact (ih.mp hp) u hm
      | some w =>
        rw [hp] at h
        dsimp only at h
        by_cases hc :
            (Queue.claimable now a && decide (a.created_at ≤ w.created_at)) = true
        · rw [if_pos hc] at h
          exact absurd h (by simp)
        · rw [if_neg hc] at h
          exact absurd h (by simp)
    · intro h
      have hts : Queue.pickOldest now ts = none :=
        ih.mpr (fun u hu => h u (List.mem_cons_of_mem _ hu))
      have hca : Queue.claimable now a = false := h a (List.mem_cons_self a ts)
      simp only [Queue.pickOldest, hts, hca]
      simp

/-- Helper: a row returned by `pickOldest` is a claimable member of the
table with minimal `created_at` among claimable rows. -/
theorem pickOldest_some (now : ℚ) (st : Queue.QState) (t : Queue.QTask)
    (h : Queue.pickOldest now st = some t) :
    t ∈ st ∧ Queue.claimable now t = true ∧
      ∀ u ∈ st, Queue.claimable now u = true → t.created_at ≤ u.created_at := by
  induction st generalizing t with
  | nil => cases h
  | cons a ts ih =>
    simp only [Queue.pickOldest] at h
    cases hp : Queue.pickOldest now ts with
    | none =>
      rw [hp] at h
      dsimp only at h
      by_cases hc : Queue.claimable now a = true
      · rw [if_pos hc] at h
        injection h with h
        subst h
        refine ⟨List.mem_cons_self _ _, hc, ?_⟩
        intro u hu hcu
        rcases List.mem_cons.mp hu with rfl | hm
        · exact le_rfl
        · rw [(pickOldest_none_iff now ts).mp hp u hm] at hcu
          cases hcu
      · rw [if_neg hc] at h
        exact absurd h (by simp)
    | some w =>
      rw [hp] at h
      dsimp only at h
      obtain ⟨hwmem, hwcl, hwmin⟩ := ih w hp
      by_cases hc :
          (Queue.claimable now a && decide (a.created_at ≤ w.created_at)) = true
      · rw [if_pos hc] at h
        injection h with h
        subst h
        rw [Bool.and_eq_true, decide_eq_true_iff] at hc
        refine ⟨List.mem_cons_self _ _, hc.1, ?_⟩
        intro u hu hcu
        rcases List.mem_cons.mp hu with rfl | hm
        · exact le_rfl
        · exact le_trans hc.2 (hwmin u hm hcu)
      · rw [if_neg hc] at h
        injection h with h
        subst h
        refine ⟨List.mem_cons_of_mem _ hwmem, hwcl, ?_⟩
        intro u hu hcu
        rcases List.mem_cons.mp hu with rfl | hm
        · rw [Bool.and_eq_true, decide_eq_true_iff] at hc
          push_neg at hc
          exact le_of_lt (hc hcu)
        · exact hwmin u hm hcu

/-- Helper: a claimable row's `next_retry_at` is null or not in the future. -/
theorem claimable_next_retry (now : ℚ) (t : Queue.QTask)
    (h : Queue.claimable now t = true) :
    t.next_retry_at = none ∨ ∃ r, t.next_retry_at = some r ∧ r ≤ now := by
  unfold Queue.claimable at h
  rw [Bool.and_eq_true] at h
  cases hn : t.next_retry_at with
  | none => exact Or.inl rfl
  | some r =>
    refine Or.inr ⟨r, rfl, ?_⟩
    rw [hn] at h
    exact of_decide_eq_true h.2

/-- C3: `dequeue` selects the oldest (by `created_at`) task whose status is
`pending` or `retry` and whose `next_retry_at` is null or not in the future,
flips it to `processing` stamping `started_at`, and returns it; it never
returns a task whose `next_retry_at` is in the future; and when no claimable
task exists it returns `none` with the queue unchanged. -/
theorem C3_dequeue_contract (now : ℚ) (st : Queue.QState) :
    ((Queue.dequeue now st).1 = none →
      (Queue.dequeue now st).2 = st ∧ ∀ t ∈ st, Queue.claimable now t = false) ∧
    (∀ row, (Queue.dequeue now st).1 = some row →
      ∃ t, t ∈ st ∧ Queue.claimable now t = true ∧ row = Queue.rowView t ∧
        (t.next_retry_at = none ∨ ∃ r, t.next_retry_at = some r ∧ r ≤ now) ∧
        (∀ u ∈ st, Queue.claimable now u = true → t.created_at ≤ u.created_at) ∧
        (Queue.dequeue now st).2 =
          st.map (fun u => if u.id = t.id then Queue.claimUpd now u else u)) ∧
    ((∀ t ∈ st, Queue.claimable now t = false) → Queue.dequeue now st = (none, st)) := by
  refine ⟨?_, ?_, ?_⟩
  · intro h
    cases hp : Queue.pickOldest now st with
    | none =>
      have hd : Queue.dequeue now st = (none, st) := by
        unfold Queue.dequeue
        rw [hp]
      rw [hd]
      exact ⟨rfl, (pickOldest_none_iff now st).mp hp⟩
    | some t =>
      have hd : Queue.dequeue now st =
          (some (Queue.rowView t),
           st.map fun u => if u.id = t.id then Queue.claimUpd now u else u) := by
        unfold Queue.dequeue
        rw [hp]
      rw [hd] at h
      cases h
  · intro row h
    cases hp : Queue.pickOldest now st with
    | none =>
      have hd : Queue.dequeue now st = (none, st) := by
        unfold Queue.dequeue
        rw [hp]
      rw [hd] at h
      cases h
    | some t =>
      have hd : Queue.dequeue now st =
          (some (Queue.rowView t),
           st.map fun u => if u.id = t.id then Queue.claimUpd now u else u) := by
        unfold Queue.dequeue
        rw [hp]
      rw [hd] at h
      obtain ⟨hmem, hcl, hmin⟩ := pickOldest_some now st t hp
      injection h with h
      rw [hd]
      exact ⟨t, hmem, hcl, h.symm, claimable_next_retry now t hcl, hmin, rfl⟩
  · intro h
    unfold Queue.dequeue
    rw [(pickOldest_none_iff now st).mpr h]

/-- Witness for C3: a two-row table whose older row (`"a"`, created at 3)
is claimable at time 10. -/
theorem C3_dequeue_contract_witness :
    ∃ t, t ∈ Queue.sampleQueue ∧ Queue.claimable 10 t = true ∧
      Queue.rowView (Queue.sampleTask "a" 3) = Queue.rowView t ∧
      (t.next_retry_at = none ∨ ∃ r, t.next_retry_at = some r ∧ r ≤ 10) ∧
      (∀ u ∈ Queue.sampleQueue,
        Queue.claimable 10 u = true → t.created_at ≤ u.created_at) ∧
      (Queue.dequeue 10 Queue.sampleQueue).2 =
        List.map (fun u => if u.id = t.id then Queue.claimUpd 10 u else u)
          Queue.sampleQueue :=
  (C3_dequeue_contract 10 Queue.sampleQueue).2.1 (Queue.rowView (Queue.sampleTask "a" 3))
    (by decide)

/-- Helper: `SELECT ... WHERE id` commutes with any row map that preserves
ids. -/
theorem getTask_map (h : Queue.QTask → Queue.QTask)
    (hid : ∀ u, (h u).id = u.id) (i : String) :
    ∀ st : Queue.QState,
      Queue.getTask (st.map h) i = (Queue.getTask st i).map h := by
  intro st
  induction st with
  | nil => rfl
  | cons a ts ih =>
    unfold Queue.getTask at ih ⊢
    rw [List.map_cons]
    by_cases hc : (a.id == i) = true
    · simp only [List.find?, hid, hc]
      rfl
    · have hc' : (a.id == i) = false := by simpa using hc
      simp only [List.find?, hid, hc']
      exact ih

/-- Helper: the `UPDATE ... WHERE id` row map preserves ids when its update
does. -/
theorem updFun_id_pres (tid : String) (g : Queue.QTask → Queue.QTask)
    (hg : ∀ u, (g u).id = u.id) :
    ∀ u, ((fun v => if v.id = tid then g v else v) u).id = u.id := by
  intro u
  dsimp only
  by_cases hc : u.id = tid
  · rw [if_pos hc]
    exact hg u
  · rw [if_neg hc]

/-- Helper: `SELECT ... WHERE id` over an `UPDATE ... WHERE id` that
preserves ids. -/
theorem getTask_update (tid : String) (h : Queue.QTask → Queue.QTask)
    (hid : ∀ u, (h u).id = u.id) :
    ∀ st : Queue.QState,
      Queue.getTask (st.map fun u => if u.id = tid then h u else u) tid =
        (Queue.getTask st tid).map fun u => if u.id = tid then h u else u := by
  intro st
  induction st with
  | nil => rfl
  | cons a ts ih =>
    unfold Queue.getTask at ih ⊢
    rw [List.map_cons]
    by_cases hc : a.id = tid
    · rw [if_pos hc]
      rw [List.find?_cons_of_pos _ (by simp [hid, hc]),
        List.find?_cons_of_pos _ (by simp [hc])]
      simp [hc]
    · rw [if_neg hc]
      rw [List.find?_cons_of_neg _ (by simp [hc]),
        List.find?_cons_of_neg _ (by simp [hc])]
      exact ih

/-- Helper: the row fetched by `getTask` is a member carrying the looked-up
id. -/
theorem getTask_mem_id {st : Queue.QState} {tid : String} {row : Queue.QTask}
    (h : Queue.getTask st tid = some row) : row ∈ st ∧ row.id = tid := by
  unfold Queue.getTask at h
  refine ⟨List.mem_of_find?_eq_some h, ?_⟩
  have := List.find?_some h
  simpa using this

/-- Helper: with pairwise-distinct ids, looking a member's id up returns
that member. -/
theorem getTask_of_mem_nodup :
    ∀ (st : Queue.QState), Queue.IdsNodup st →
      ∀ {u : Queue.QTask}, u ∈ st → Queue.getTask st u.id = some u := by
  intro st
  induction st with
  | nil => intro _ _ hu; cases hu
  | cons a ts ih =>
    intro hnd u hu
    unfold Queue.IdsNodup at hnd
    rw [List.map_cons, List.nodup_cons] at hnd
    rcases List.mem_cons.mp hu with rfl | hm
    · unfold Queue.getTask
      rw [List.find?_cons_of_pos _ (by simp)]
    · have hne : (a.id == u.id) = false := by
        rw [beq_eq_false_iff_ne]
        intro he
        exact hnd.1 (he ▸ List.mem_map_of_mem (fun t => t.id) hm)
      unfold Queue.getTask
      rw [List.find?_cons_of_neg _ (by simp [hne])]
      exact ih hnd.2 hm

/-- Helper: under distinct ids, any member carrying the looked-up id is the
fetched row. -/
theorem getTask_unique {st : Queue.QState} (hnd : Queue.IdsNodup st)
    {tid : String} {row : Queue.QTask} (hrow : Queue.getTask st tid = some row)
    {u : Queue.QTask} (hu : u ∈ st) (hid : u.id = tid) : u = row := by
  have h := getTask_of_mem_nodup st hnd hu
  rw [hid, hrow] at h
  injection h with h
  exact h.symm

/-- Helper: `RCInv` for a mapped table follows from the invariant on each
image row. -/
theorem RCInv_map (st : Queue.QState) (f : Queue.QTask → Queue.QTask)
    (hf : ∀ u ∈ st, (f u).retry_count ≤ (f u).max_retries) :
    Queue.RCInv (st.map f) := by
  intro t ht
  obtain ⟨u, hu, rfl⟩ := List.mem_map.mp ht
  exact hf u hu

/-- Helper: the retry branch of `fail_task` (`retry and retry_count <
max_retries`): the row is rescheduled with `status='retry'`, incremented
`retry_count` and `next_retry_at = now + 2 ^ retry_count` minutes. -/
theorem fail_task_retry_branch (now : ℚ) (st : Queue.QState)
    (tid msg : String) (row : Queue.QTask)
    (hrow : Queue.getTask st tid = some row)
    (hlt : row.retry_count < row.max_retries) :
    Queue.getTask (Queue.fail_task now st tid msg true) tid =
      some { row with
        status := .retry,
        retry_count := row.retry_count + 1,
        next_retry_at := some (now + 2 ^ row.retry_count),
        error_message := some msg } := by
  unfold Queue.fail_task
  have hfind := hrow
  unfold Queue.getTask at hfind
  rw [hfind]
  dsimp only
  rw [if_pos (by simp [hlt])]
  rw [getTask_update tid
    (fun u => { u with
      status := .retry,
      retry_count := row.retry_count + 1,
      next_retry_at := some (now + 2 ^ row.retry_count),
      error_message := some msg }) (fun u => rfl) st]
  rw [hrow]
  have hid := (getTask_mem_id hrow).2
  simp [hid]

/-- Helper: the terminal branch of `fail_task` (`retry` false, or the retry
budget exhausted): the row is marked `failed`. -/
theorem fail_task_failed_branch (now : ℚ) (st : Queue.QState)
    (tid msg : String) (retry : Bool) (row : Queue.QTask)
    (hrow : Queue.getTask st tid = some row)
    (hterm : retry = false ∨ ¬ row.retry_count < row.max_retries) :
    Queue.getTask (Queue.fail_task now st tid msg retry) tid =
      some { row with status := .failed, error_message := some msg } := by
  unfold Queue.fail_task
  have hfind := hrow
  unfold Queue.getTask at hfind
  rw [hfind]
  dsimp only
  have hcond : (retry && decide (row.retry_count < row.max_retries)) = false := by
    rcases hterm with h | h <;> simp [h]
  rw [hcond]
  rw [if_neg (by simp)]
  rw [getTask_update tid
    (fun u => { u with status := .failed, error_message := some msg })
    (fun u => rfl) st]
  rw [hrow]
  have hid := (getTask_mem_id hrow).2
  simp [hid]

/-- C2 counterexample: `fail_task` with `retry=False` (as the worker issues
for unknown task names) moves a task with `retry_count = 0 < max_retries = 3`
straight to `failed`, so a task does not transition to `failed` *exactly*
when a failure occurs with `retry_count == max_retries`. -/
theorem C2_counterexample :
    (Queue.getTask (Queue.fail_task 0 Queue.sampleQueue "b" "x" false) "b").map
        (fun u => (u.status, u.retry_count, u.max_retries)) =
      some (.failed, 0, 3) ∧ (0 : ℕ) ≠ 3 :=
  ⟨by decide, by decide⟩

/-- C2 (amended): `retry_count ≤ max_retries` is preserved by every queue
operation; a `fail_task` call with retry allowed and `retry_count <
max_retries` sets status `retry`, increments `retry_count` and sets
`next_retry_at = now + 2 ^ retry_count` minutes, so successive fail calls
yield strictly increasing `next_retry_at`; a task transitions to the
terminal `failed` status exactly when a failure occurs with retry disallowed
or with `retry_count == max_retries`; in particular, for a task with
`max_retries = 2`, the first two retry-allowed fail calls yield status
`retry` with increasing `next_retry_at` and the third yields `failed`. -/
theorem C2_fail_task_lifecycle :
    (∀ (now : ℚ) (st : Queue.QState) (tid name args kwargs : String),
      Queue.RCInv st → Queue.RCInv (Queue.enqueue now st tid name args kwargs)) ∧
    (∀ (now : ℚ) (st : Queue.QState),
      Queue.RCInv st → Queue.RCInv (Queue.dequeue now st).2) ∧
    (∀ (now : ℚ) (st : Queue.QState) (tid : String) (res : Option String),
      Queue.RCInv st → Queue.RCInv (Queue.complete_task now st tid res)) ∧
    (∀ (now : ℚ) (st : Queue.QState) (tid msg : String) (retry : Bool),
      Queue.RCInv st → Queue.IdsNodup st →
      Queue.RCInv (Queue.fail_task now st tid msg retry)) ∧
    (∀ (now : ℚ) (st : Queue.QState) (tid msg : String) (row : Queue.QTask),
      Queue.getTask st tid = some row →
      row.retry_count < row.max_retries →
      (Queue.getTask (Queue.fail_task now st tid msg true) tid).map
          (fun u => (u.status, u.retry_count, u.next_retry_at)) =
        some (.retry, row.retry_count + 1, some (now + 2 ^ row.retry_count))) ∧
    (∀ (now₁ now₂ : ℚ) (st : Queue.QState) (tid m₁ m₂ : String)
      (row : Queue.QTask),
      now₁ ≤ now₂ → Queue.getTask st tid = some row →
      row.retry_count + 1 < row.max_retries →
      (Queue.getTask (Queue.fail_task now₁ st tid m₁ true) tid).map
          (fun u => u.next_retry_at) = some (some (now₁ + 2 ^ row.retry_count)) ∧
      (Queue.getTask
            (Queue.fail_task now₂ (Queue.fail_task now₁ st tid m₁ true) tid m₂
              true) tid).map (fun u => u.next_retry_at) =
        some (some (now₂ + 2 ^ (row.retry_count + 1))) ∧
      now₁ + 2 ^ row.retry_count < now₂ + 2 ^ (row.retry_count + 1)) ∧
    (∀ (now : ℚ) (st : Queue.QState) (tid msg : String) (retry : Bool)
      (row : Queue.QTask),
      Queue.RCInv st → Queue.getTask st tid = some row →
      ((Queue.getTask (Queue.fail_task now st tid msg retry) tid).map
          (fun u => u.status) = some .failed ↔
        (retry = false ∨ row.retry_count = row.max_retries))) ∧
    (∀ (now₁ now₂ now₃ : ℚ) (st : Queue.QState) (tid m : String)
      (row : Queue.QTask),
      now₁ ≤ now₂ → Queue.getTask st tid = some row →
      row.retry_count = 0 → row.max_retries = 2 →
      ((Queue.getTask (Queue.fail_task now₁ st tid m true) tid).map
          (fun u => (u.status, u.next_retry_at)) =
        some (.retry, some (now₁ + 1))) ∧
      ((Queue.getTask
            (Queue.fail_task now₂ (Queue.fail_task now₁ st tid m true) tid m
              true) tid).map (fun u => (u.status, u.next_retry_at)) =
        some (.retry, some (now₂ + 2))) ∧
      now₁ + 1 < now₂ + 2 ∧
      ((Queue.getTask
            (Queue.fail_task now₃
              (Queue.fail_task now₂ (Queue.fail_task now₁ st tid m true) tid m
                true) tid m true) tid).map (fun u => u.status) =
        some .failed)) := by
  have hretry := fail_task_retry_branch
  have hfailed := fail_task_failed_branch
  refine ⟨?_, ?_, ?_, ?_, ?_, ?_, ?_, ?_⟩
  · intro now st tid name args kwargs hinv t ht
    unfold Queue.enqueue at ht
    rcases List.mem_append.mp ht with h | h
    · exact hinv t h
    · rw [List.mem_singleton] at h
      subst h
      exact Nat.zero_le _
  · intro now st hinv
    cases hp : Queue.pickOldest now st with
    | none =>
      have hd : Queue.dequeue now st = (none, st) := by
        unfold Queue.dequeue
        rw [hp]
      rw [hd]
      exact hinv
    | some t =>
      have hd : Queue.dequeue now st =
          (some (Queue.rowView t),
           st.map fun u => if u.id = t.id then Queue.claimUpd now u else u) := by
        unfold Queue.dequeue
        rw [hp]
      rw [hd]
      refine RCInv_map st _ (fun u hu => ?_)
      by_cases hc : u.id = t.id
      · rw [if_pos hc]
        exact hinv u hu
      · rw [if_neg hc]
        exact hinv u hu
  · intro now st tid res hinv
    unfold Queue.complete_task
    refine RCInv_map st _ (fun u hu => ?_)
    by_cases hc : u.id = tid
    · rw [if_pos hc]
      exact hinv u hu
    · rw [if_neg hc]
      exact hinv u hu
  · intro now st tid msg retry hinv hnd
    unfold Queue.fail_task
    cases hfind : st.find? (fun u => u.id == tid) with
    | none => exact hinv
    | some row =>
      dsimp only
      by_cases hc : (retry && decide (row.retry_count < row.max_retries)) = true
      · rw [if_pos hc]
        rw [Bool.and_eq_true, decide_eq_true_iff] at hc
        refine RCInv_map st _ (fun u hu => ?_)
        by_cases hcu : u.id = tid
        · rw [if_pos hcu]
          have hu_row : u = row := getTask_unique hnd hfind hu hcu
          subst hu_row
          exact hc.2
        · rw [if_neg hcu]
          exact hinv u hu
      · rw [if_neg hc]
        refine RCInv_map st _ (fun u hu => ?_)
        by_cases hcu : u.id = tid
        · rw [if_pos hcu]
          exact hinv u hu
        · rw [if_neg hcu]
          exact hinv u hu
  · intro now st tid msg row hrow hlt
    rw [hretry now st tid msg row hrow hlt]
    rfl
  · intro now₁ now₂ st tid m₁ m₂ row hle hrow hlt
    have h1 := hretry now₁ st tid m₁ row hrow (by omega)
    have h2 := hretry now₂ _ tid m₂ _ h1 (by simpa using hlt)
    refine ⟨by rw [h1]; rfl, by rw [h2]; rfl, ?_⟩
    have hpow : (2 : ℚ) ^ row.retry_count < 2 ^ (row.retry_count + 1) := by
      rw [pow_succ]
      have hpos : (0 : ℚ) < 2 ^ row.retry_count := by positivity
      linarith
    linarith
  · intro now st tid msg retry row hinv hrow
    cases retry with
    | false =>
      rw [hfailed now st tid msg false row hrow (Or.inl rfl)]
      simp
    | true =>
      by_cases hlt : row.retry_count < row.max_retries
      · rw [hretry now st tid msg row hrow hlt]
        simp only [Option.map_some']
        constructor
        · intro h
          cases h
        · intro h
          rcases h with h | h
          · cases h
          · omega
      · rw [hfailed now st tid msg true row hrow (Or.inr hlt)]
        have hmem := (getTask_mem_id hrow).1
        have hle := hinv row hmem
        simp only [Option.map_some']
        constructor
        · intro _
          exact Or.inr (by omega)
        · intro _
          trivial
  · intro now₁ now₂ now₃ st tid m row hle hrow hrc hmr
    have h1 := hretry now₁ st tid m row hrow (by omega)
    have h2 := hretry now₂ _ tid m _ h1 (by simp [hrc, hmr])
    have h3 := hfailed now₃ _ tid m true _ h2 (Or.inr (by simp [hrc, hmr]))
    refine ⟨by rw [h1]; simp [hrc], by rw [h2]; simp [hrc], by linarith,
      by rw [h3]; rfl⟩

/-- Witness for C2 (amended), applying its three-failure scenario to a
single-row table whose task has `max_retries = 2`, at times 0, 1, 2. -/
theorem C2_fail_task_lifecycle_witness :
    ((Queue.getTask (Queue.fail_task 0 [Queue.sampleTaskM2] "t" "x" true) "t").map
        (fun u => (u.status, u.next_retry_at)) =
      some (.retry, some ((0 : ℚ) + 1))) ∧
    ((Queue.getTask
          (Queue.fail_task 1 (Queue.fail_task 0 [Queue.sampleTaskM2] "t" "x" true)
            "t" "x" true) "t").map (fun u => (u.status, u.next_retry_at)) =
      some (.retry, some ((1 : ℚ) + 2))) ∧
    (0 : ℚ) + 1 < 1 + 2 ∧
    ((Queue.getTask
          (Queue.fail_task 2
            (Queue.fail_task 1 (Queue.fail_task 0 [Queue.sampleTaskM2] "t" "x" true)
              "t" "x" true) "t" "x" true) "t").map (fun u => u.status) =
      some .failed) :=
  C2_fail_task_lifecycle.2.2.2.2.2.2.2 0 1 2 [Queue.sampleTaskM2] "t" "x"
    Queue.sampleTaskM2 (by norm_num) (by decide) (by decide) (by decide)

/-- Helper: a claimable row is `pending` or `retry` — never `processing`. -/
theorem claimable_status {now : ℚ} {t : Queue.QTask}
    (h : Queue.claimable now t = true) :
    t.status = .pending ∨ t.status = .retry := by
  unfold Queue.claimable at h
  rw [Bool.and_eq_true, Bool.or_eq_true] at h
  rcases h.1 with h1 | h1
  · exact Or.inl (by simpa using h1)
  · exact Or.inr (by simpa using h1)

/-- Helper: the claimed row is no longer claimable after the claim update. -/
theorem claimable_claimUpd (now now' : ℚ) (t : Queue.QTask) :
    Queue.claimable now (Queue.claimUpd now' t) = false := by
  unfold Queue.claimable Queue.claimUpd
  rfl

/-- Helper: no claimable row exists iff the claimable count is zero. -/
theorem claimableCount_eq_zero (now : ℚ) (st : Queue.QState) :
    Queue.claimableCount now st = 0 ↔
      ∀ t ∈ st, Queue.claimable now t = false := by
  unfold Queue.claimableCount
  rw [List.length_eq_zero, List.filter_eq_nil_iff]
  constructor
  · intro h t ht
    have := h t ht
    simpa using this
  · intro h t ht
    simp [h t ht]

/-- Helper: an id-preserving `UPDATE ... WHERE id` leaves the id column
unchanged. -/
theorem ids_map_update (tid : String) (h : Queue.QTask → Queue.QTask)
    (hid : ∀ u, (h u).id = u.id) (st : Queue.QState) :
    (st.map fun u => if u.id = tid then h u else u).map (fun t => t.id) =
      st.map (fun t => t.id) := by
  rw [List.map_map]
  refine List.map_congr_left (fun u _ => ?_)
  by_cases hc : u.id = tid
  · simp [hc, hid]
  · simp [hc]

/-- Helper: claiming one claimable row decreases the claimable count by
exactly one. -/
theorem claimableCount_claim (now : ℚ) :
    ∀ (st : Queue.QState) (t : Queue.QTask),
      Queue.IdsNodup st → t ∈ st → Queue.claimable now t = true →
      Queue.claimableCount now
          (st.map fun u => if u.id = t.id then Queue.claimUpd now u else u) + 1 =
        Queue.claimableCount now st := by
  intro st
  induction st with
  | nil => intro t _ ht; cases ht
  | cons a ts ih =>
    intro t hnd ht hcl
    unfold Queue.IdsNodup at hnd
    rw [List.map_cons, List.nodup_cons] at hnd
    rcases List.mem_cons.mp ht with rfl | hm
    · rw [List.map_cons, if_pos rfl]
      have hts : (ts.map fun u =>
          if u.id = t.id then Queue.claimUpd now u else u) = ts := by
        have hcg : ∀ u ∈ ts,
            (if u.id = t.id then Queue.claimUpd now u else u) = u := by
          intro u hu
          rw [if_neg]
          intro he
          exact hnd.1 (he ▸ List.mem_map_of_mem (fun v => v.id) hu)
        exact (List.map_congr_left hcg).trans (by simp)
      rw [hts]
      unfold Queue.claimableCount
      rw [List.filter_cons, List.filter_cons]
      rw [claimable_claimUpd, hcl]
      simp
    · have hne : a.id ≠ t.id := fun he =>
        hnd.1 (he ▸ List.mem_map_of_mem (fun v => v.id) hm)
      rw [List.map_cons, if_neg hne]
      have hih := ih t hnd.2 hm hcl
      unfold Queue.claimableCount at hih ⊢
      rw [List.filter_cons, List.filter_cons]
      by_cases hca : Queue.claimable now a = true
      · rw [if_pos hca, if_pos hca]
        simp only [List.length_cons]
        omega
      · rw [if_neg hca, if_neg hca]
        exact hih

/-- Helper: each `dequeueN` round produces one result per caller. -/
theorem dequeueN_length (now : ℚ) :
    ∀ (k : ℕ) (st : Queue.QState), (Queue.dequeueN now k st).1.length = k := by
  intro k
  induction k with
  | zero => intro st; rfl
  | succ n ih =>
    intro st
    unfold Queue.dequeueN
    simp [ih]

/-- Helper: an option list's `none`-count and `some`-count add up to its
length. -/
theorem countP_none_add_some (l : List (Option Queue.DequeuedRow)) :
    l.countP (fun o => o.isNone) + l.countP (fun o => o.isSome) = l.length := by
  induction l with
  | nil => rfl
  | cons a l ih =>
    cases a <;> simp [List.countP_cons] <;> omega

/-- Helper for C9, by induction over the number of callers: serialized
`dequeue` rounds hand out `min k m` tasks and never hand the same id to two
callers; `prev` carries the ids already handed out (all `processing`). -/
theorem dequeueN_spec (now : ℚ) :
    ∀ (k : ℕ) (st : Queue.QState) (prev : List String),
      Queue.IdsNodup st → prev.Nodup →
      (∀ i ∈ prev, ∃ u, Queue.getTask st i = some u ∧ u.status = .processing) →
      ((Queue.dequeueN now k st).1.countP (fun o => o.isSome) =
        min k (Queue.claimableCount now st)) ∧
      (prev ++ (Queue.dequeueN now k st).1.filterMap
          (fun o => o.map (fun r => r.id))).Nodup := by
  intro k
  induction k with
  | zero =>
    intro st prev _ hprev _
    have hnil : (Queue.dequeueN now 0 st).1 = [] := rfl
    rw [hnil]
    refine ⟨?_, ?_⟩
    · rw [List.countP_nil]
      omega
    · simpa using hprev
  | succ n ih =>
    intro st prev hnd hprev hproc
    cases hp : Queue.pickOldest now st with
    | none =>
      have hd : Queue.dequeue now st = (none, st) := by
        unfold Queue.dequeue
        rw [hp]
      have hm0 : Queue.claimableCount now st = 0 :=
        (claimableCount_eq_zero now st).mpr ((pickOldest_none_iff now st).mp hp)
      have hrest := ih st prev hnd hprev hproc
      unfold Queue.dequeueN
      rw [hd]
      simp only [List.countP_cons, List.filterMap_cons]
      constructor
      · simp only [Option.isSome_none]
        rw [hrest.1, hm0]
        simp
      · simpa using hrest.2
    | some t =>
      obtain ⟨hmem, hcl, _⟩ := pickOldest_some now st t hp
      have hd : Queue.dequeue now st =
          (some (Queue.rowView t),
           st.map fun u => if u.id = t.id then Queue.claimUpd now u else u) := by
        unfold Queue.dequeue
        rw [hp]
      have hnd' : Queue.IdsNodup
          (st.map fun u => if u.id = t.id then Queue.claimUpd now u else u) := by
        unfold Queue.IdsNodup
        rw [ids_map_update t.id (Queue.claimUpd now) (fun u => rfl) st]
        exact hnd
      have htid_notin : t.id ∉ prev := by
        intro hin
        obtain ⟨u, hu, hust⟩ := hproc t.id hin
        have := getTask_of_mem_nodup st hnd hmem
        rw [this] at hu
        injection hu with hu
        rcases claimable_status hcl with h | h <;> rw [← hu] at hust <;>
          rw [h] at hust <;> cases hust
      have hproc' : ∀ i ∈ prev ++ [t.id], ∃ u,
          Queue.getTask
              (st.map fun v => if v.id = t.id then Queue.claimUpd now v else v) i =
            some u ∧ u.status = .processing := by
        intro i hi
        rcases List.mem_append.mp hi with hi | hi
        · obtain ⟨u, hu, hust⟩ := hproc i hi
          refine ⟨u, ?_, hust⟩
          have hiu : u.id = i := (getTask_mem_id hu).2
          rw [getTask_map (fun v => if v.id = t.id then Queue.claimUpd now v else v)
            (updFun_id_pres t.id (Queue.claimUpd now) (fun v => rfl)) i st, hu]
          have hne : u.id ≠ t.id := by
            intro he
            have hut : u = t := getTask_unique hnd
              (getTask_of_mem_nodup st hnd hmem) (getTask_mem_id hu).1 he
            rcases claimable_status hcl with h | h <;>
              rw [hut, h] at hust <;> cases hust
          simp [hne]
        · rw [List.mem_singleton] at hi
          subst hi
          refine ⟨Queue.claimUpd now t, ?_, rfl⟩
          rw [getTask_map (fun v => if v.id = t.id then Queue.claimUpd now v else v)
            (updFun_id_pres t.id (Queue.claimUpd now) (fun v => rfl)) t.id st,
            getTask_of_mem_nodup st hnd hmem]
          simp
      have hprev' : (prev ++ [t.id]).Nodup := by
        simp [List.nodup_append, hprev, htid_notin]
      have hrest := ih _ (prev ++ [t.id]) hnd' hprev' hproc'
      have hcount := claimableCount_claim now st t hnd hmem hcl
      unfold Queue.dequeueN
      rw [hd]
      simp only [List.countP_cons, List.filterMap_cons]
      constructor
      · rw [hrest.1]
        have hone : (if (some (Queue.rowView t)).isSome = true then 1 else 0) = 1 :=
          rfl
        rw [hone]
        omega
      · have := hrest.2
        rw [List.append_assoc] at this
        simpa using this

/-- C9: under `k` lock-serialized concurrent `dequeue` calls against a
queue holding `m < k` claimable tasks (with distinct primary-key ids),
exactly `m` callers receive a task, the received task ids are pairwise
distinct, and the remaining `k - m` callers receive `none`. -/
theorem C9_concurrent_dequeue (now : ℚ) (st : Queue.QState) (k : ℕ)
    (hnd : Queue.IdsNodup st) (hm : Queue.claimableCount now st < k) :
    ((Queue.dequeueN now k st).1.countP (fun o => o.isSome) =
      Queue.claimableCount now st) ∧
    ((Queue.dequeueN now k st).1.countP (fun o => o.isNone) =
      k - Queue.claimableCount now st) ∧
    ((Queue.dequeueN now k st).1.filterMap
        (fun o => o.map (fun r => r.id))).Nodup := by
  have hspec := dequeueN_spec now k st [] hnd List.nodup_nil
    (fun i hi => absurd hi (List.not_mem_nil i))
  have hsome : (Queue.dequeueN now k st).1.countP (fun o => o.isSome) =
      Queue.claimableCount now st := by
    rw [hspec.1]
    omega
  refine ⟨hsome, ?_, by simpa using hspec.2⟩
  have hlen := dequeueN_length now k st
  have hadd := countP_none_add_some (Queue.dequeueN now k st).1
  omega

/-- Witness for C9: three concurrent callers against the two claimable rows
of the sample table. -/
theorem C9_concurrent_dequeue_witness :
    ((Queue.dequeueN 10 3 Queue.sampleQueue).1.countP (fun o => o.isSome) =
      Queue.claimableCount 10 Queue.sampleQueue) ∧
    ((Queue.dequeueN 10 3 Queue.sampleQueue).1.countP (fun o => o.isNone) =
      3 - Queue.claimableCount 10 Queue.sampleQueue) ∧
    ((Queue.dequeueN 10 3 Queue.sampleQueue).1.filterMap
        (fun o => o.map (fun r => r.id))).Nodup :=
  C9_concurrent_dequeue 10 Queue.sampleQueue 3 (by decide) (by decide)

/-- Every result of `handle_api_error` is a typed retryable or
non-retryable error. -/
theorem handle_api_error_typed (e : ErrH.PyError) (n : String) :
    ErrH.isRetryableExc (ErrH.handle_api_error e n) = true ∨
      ErrH.isNonRetryableExc (ErrH.handle_api_error e n) = true := by
  unfold ErrH.handle_api_error
  dsimp only
  split_ifs <;> simp [ErrH.isRetryableExc, ErrH.isNonRetryableExc]

/-- Every result of `handle_file_error` is a typed retryable or
non-retryable error. -/
theorem handle_file_error_typed (e : ErrH.PyError) (p : String) :
    ErrH.isRetryableExc (ErrH.handle_file_error e p) = true ∨
      ErrH.isNonRetryableExc (ErrH.handle_file_error e p) = true := by
  cases e <;> simp [ErrH.handle_file_error, ErrH.isRetryableExc, ErrH.isNonRetryableExc]

/-- Every result of `handle_database_error` is a typed retryable or
non-retryable error. -/
theorem handle_database_error_typed (e : ErrH.PyError) (op : String) :
    ErrH.isRetryableExc (ErrH.handle_database_error e op) = true ∨
      ErrH.isNonRetryableExc (ErrH.handle_database_error e op) = true := by
  unfold ErrH.handle_database_error
  dsimp only
  split_ifs <;> simp [ErrH.isRetryableExc, ErrH.isNonRetryableExc]

/-- Every result of `handle_parsing_error` is a typed retryable or
non-retryable error. -/
theorem handle_parsing_error_typed (e : ErrH.PyError) (f : String) :
    ErrH.isRetryableExc (ErrH.handle_parsing_error e f) = true ∨
      ErrH.isNonRetryableExc (ErrH.handle_parsing_error e f) = true := by
  unfold ErrH.handle_parsing_error
  dsimp only
  split_ifs <;> simp [ErrH.isRetryableExc, ErrH.isNonRetryableExc]

/-- Classification always surfaces a typed error value: it never returns
anything but a retryable or non-retryable error. -/
theorem log_and_handle_classify_surfaces (e : ErrH.PyError) (ctx : String) :
    ErrH.isRetryableExc (ErrH.log_and_handle_classify e ctx) = true ∨
      ErrH.isNonRetryableExc (ErrH.log_and_handle_classify e ctx) = true := by
  unfold ErrH.log_and_handle_classify
  dsimp only
  split_ifs
  · exact handle_api_error_typed e "OpenAI"
  · exact handle_file_error_typed e ctx
  · exact handle_database_error_typed e ctx
  · exact handle_parsing_error_typed e ctx
  · left
    rfl

/-- C5 counterexample: the raw failure `"zzz"` matches none of the
classifier's keyword patterns, yet `log_and_handle_error` classifies it as a
*retryable* `Unknown` error, not a non-retryable one as the claim states. -/
theorem C5_counterexample :
    ErrH.log_and_handle_classify (.generic "zzz") "parsing" =
      .retryableError "未分类错误: zzz" .unknown_error ∧
    ErrH.isNonRetryableExc
        (ErrH.log_and_handle_classify (.generic "zzz") "parsing") = false ∧
    ErrH.kindOf (ErrH.log_and_handle_classify (.generic "zzz") "parsing") =
      some .unknown_error := by
  refine ⟨?_, ?_, ?_⟩ <;> decide

/-- C5 (amended): a raw failure whose message matches none of the
classifier's recognized keyword patterns is classified with the `Unknown`
kind but a *retryable* verdict, and every failure is surfaced: the
classifier always returns a typed (retryable or non-retryable) error, never
swallowing the failure. -/
theorem C5_unmatched_message_unknown_retryable
    (msg ctx : String)
    (h1 : strContains (pyLower msg) "openai" = false)
    (h2 : strContains (pyLower msg) "api" = false)
    (h3 : strContains (pyLower msg) "file" = false)
    (h4 : strContains (pyLower msg) "path" = false)
    (h5 : strContains (pyLower msg) "database" = false)
    (h6 : strContains (pyLower msg) "chroma" = false)
    (h7 : strContains (pyLower msg) "parse" = false)
    (h8 : strContains (pyLower msg) "mineru" = false) :
    ErrH.log_and_handle_classify (.generic msg) ctx =
      .retryableError ("未分类错误: " ++ msg) .unknown_error ∧
    ErrH.isRetryableExc (ErrH.log_and_handle_classify (.generic msg) ctx) = true ∧
    ErrH.kindOf (ErrH.log_and_handle_classify (.generic msg) ctx) =
      some .unknown_error ∧
    (∀ e : ErrH.PyError,
      ErrH.isRetryableExc (ErrH.log_and_handle_classify e ctx) = true ∨
        ErrH.isNonRetryableExc (ErrH.log_and_handle_classify e ctx) = true) := by
  have hcl : ErrH.log_and_handle_classify (.generic msg) ctx =
      .retryableError ("未分类错误: " ++ msg) .unknown_error := by
    unfold ErrH.log_and_handle_classify
    simp only [ErrH.msgOf, h1, h2, h3, h4, h5, h6, h7, h8, Bool.or_self,
      Bool.false_eq_true, if_false]
  refine ⟨hcl, ?_, ?_, fun e => log_and_handle_classify_surfaces e ctx⟩
  · rw [hcl]
    rfl
  · rw [hcl]
    rfl

/-- Witness for C5 (amended) at the unmatched message `"zzz"`. -/
theorem C5_unmatched_message_unknown_retryable_witness :
    ErrH.log_and_handle_classify (.generic "zzz") "chunking" =
      .retryableError ("未分类错误: " ++ "zzz") .unknown_error ∧
    ErrH.isRetryableExc
        (ErrH.log_and_handle_classify (.generic "zzz") "chunking") = true ∧
    ErrH.kindOf (ErrH.log_and_handle_classify (.generic "zzz") "chunking") =
      some .unknown_error ∧
    (∀ e : ErrH.PyError,
      ErrH.isRetryableExc (ErrH.log_and_handle_classify e "chunking") = true ∨
        ErrH.isNonRetryableExc (ErrH.log_and_handle_classify e "chunking") = true) :=
  C5_unmatched_message_unknown_retryable "zzz" "chunking"
    (by decide) (by decide) (by decide) (by decide)
    (by decide) (by decide) (by decide) (by decide)

/-- C6 counterexample: the already-typed retryable error
`RetryableError("api invalid", API_ERROR)` is reclassified by
`log_and_handle_error` into a *non-retryable* error — its verdict is not
preserved. -/
theorem C6_counterexample :
    ErrH.isRetryableExc
        (ErrH.PyError.retryableError "api invalid" .api_error) = true ∧
    ErrH.log_and_handle_classify (.retryableError "api invalid" .api_error)
        "chunking" =
      .nonRetryableError "OpenAI 请求参数错误: api invalid" .api_error ∧
    ErrH.isNonRetryableExc
        (ErrH.log_and_handle_classify (.retryableError "api invalid" .api_error)
          "chunking") = true := by
  refine ⟨?_, ?_, ?_⟩ <;> decide

/-- C6 (amended): `log_and_handle_error` classifies an already-typed
retryable or non-retryable error by exactly the same message-keyword rules
as an untyped failure with the same message — the carried kind and verdict
are ignored, so the verdict is not preserved in general. -/
theorem C6_typed_errors_reclassified_by_message_only
    (msg ctx : String) (t₁ t₂ : ErrH.ErrorType) :
    ErrH.log_and_handle_classify (.retryableError msg t₁) ctx =
      ErrH.log_and_handle_classify (.generic msg) ctx ∧
    ErrH.log_and_handle_classify (.nonRetryableError msg t₂) ctx =
      ErrH.log_and_handle_classify (.generic msg) ctx := by
  constructor <;> rfl

/-- C7: when the parsing stage fails with a non-retryable classified error,
`process_document` leaves the document with a final status update of
`error` and progress `0` carrying the error message, and the chunking,
embedding and storing stages are never invoked. -/
theorem C7_parse_nonretryable_terminal_error
    (env : Tasks.PDEnv) (fr : Tasks.FileRecord) (m : String) (t : ErrH.ErrorType)
    (hskip : env.should_skip = false)
    (hfr : env.file_record = some fr)
    (hparse : env.parse = .error (.nonRetryableError m t)) :
    Tasks.process_document env =
      ⟨[("parsing", 10, "MinerU解析中..."),
        ("error", 0, "❌ 处理失败 (不可重试): " ++ m)],
       [.parsing], .raised (.nonRetryableError m t)⟩ ∧
    (Tasks.process_document env).updates.getLast? =
      some ("error", 0, "❌ 处理失败 (不可重试): " ++ m) ∧
    Tasks.Stage.chunking ∉ (Tasks.process_document env).invoked ∧
    Tasks.Stage.embedding ∉ (Tasks.process_document env).invoked ∧
    Tasks.Stage.storing ∉ (Tasks.process_document env).invoked := by
  have hpd : Tasks.process_document env =
      ⟨[("parsing", 10, "MinerU解析中..."),
        ("error", 0, "❌ 处理失败 (不可重试): " ++ m)],
       [.parsing], .raised (.nonRetryableError m t)⟩ := by
    unfold Tasks.process_document
    rw [hskip, hfr, hparse]
    simp [Tasks.handleFailure, ErrH.isNonRetryableExc, ErrH.msgOf]
  rw [hpd]
  refine ⟨rfl, rfl, ?_, ?_, ?_⟩ <;> simp

/-- Witness for C7: a concrete environment whose parsing stage raises a
non-retryable parsing error. -/
theorem C7_parse_nonretryable_terminal_error_witness :
    Tasks.process_document
        { should_skip := false, error_count := 0,
          file_record := some ⟨"/tmp/a.pdf", "a.pdf"⟩,
          parse := .error (.nonRetryableError "文档损坏" .parsing_error),
          chunk := fun _ => .ok [], embed := fun _ => .ok [],
          store := fun _ _ => .ok () } =
      ⟨[("parsing", 10, "MinerU解析中..."),
        ("error", 0, "❌ 处理失败 (不可重试): " ++ "文档损坏")],
       [.parsing], .raised (.nonRetryableError "文档损坏" .parsing_error)⟩ :=
  (C7_parse_nonretryable_terminal_error
    { should_skip := false, error_count := 0,
      file_record := some ⟨"/tmp/a.pdf", "a.pdf"⟩,
      parse := .error (.nonRetryableError "文档损坏" .parsing_error),
      chunk := fun _ => .ok [], embed := fun _ => .ok [],
      store := fun _ _ => .ok () }
    ⟨"/tmp/a.pdf", "a.pdf"⟩ "文档损坏" .parsing_error rfl rfl rfl).1

/-- C10: if the embedding engine fails with any exception,
`generate_embeddings` does not propagate it: it returns the fallback list,
with exactly one 768-dimensional vector per chunk. -/
theorem C10_generate_embeddings_fallback
    (engine : List Tasks.Chunk → Except ErrH.PyError (List (List ℚ)))
    (rng : ℕ → ℕ → ℚ) (chunks : List Tasks.Chunk) (e : ErrH.PyError)
    (h : engine chunks = .error e) :
    Tasks.generate_embeddings engine rng chunks =
      Tasks.fallback_embeddings rng chunks ∧
    (Tasks.generate_embeddings engine rng chunks).length = chunks.length ∧
    ∀ v ∈ Tasks.generate_embeddings engine rng chunks, v.length = 768 := by
  have hfb : Tasks.generate_embeddings engine rng chunks =
      Tasks.fallback_embeddings rng chunks := by
    unfold Tasks.generate_embeddings
    rw [h]
  refine ⟨hfb, ?_, ?_⟩
  · rw [hfb]
    unfold Tasks.fallback_embeddings
    simp
  · rw [hfb]
    unfold Tasks.fallback_embeddings
    intro v hv
    simp only [List.mem_map] at hv
    obtain ⟨i, _, hvi⟩ := hv
    rw [← hvi]
    simp

/-- Witness for C10: a two-chunk list with an engine that always raises. -/
theorem C10_generate_embeddings_fallback_witness :
    Tasks.generate_embeddings (fun _ => .error (.generic "boom"))
        (fun _ _ => 0) ["a", "b"] =
      Tasks.fallback_embeddings (fun _ _ => 0) ["a", "b"] ∧
    (Tasks.generate_embeddings (fun _ => .error (.generic "boom"))
        (fun _ _ => 0) ["a", "b"]).length = 2 ∧
    ∀ v ∈ Tasks.generate_embeddings (fun _ => .error (.generic "boom"))
        (fun _ _ => 0) ["a", "b"], v.length = 768 :=
  C10_generate_embeddings_fallback (fun _ => .error (.generic "boom"))
    (fun _ _ => 0) ["a", "b"] (.generic "boom") rfl

end DocAnalysis
